import Mathlib

/-!
# Verification of the task-list backend (`src/app.js`)

A shallow embedding of the Express + SQLite task backend. The store is a
pair of tables:

* `tasks (id INTEGER PRIMARY KEY AUTOINCREMENT, title, description,
  done BOOLEAN DEFAULT 0, position INTEGER, created_at)` — modelled as a
  list of `Task` records plus a fresh-id counter (`created_at` plays no
  role in any endpoint's behaviour and is omitted);
* `task_relationships (parent_id, child_id, PRIMARY KEY (parent_id, child_id),
  FOREIGN KEY ... ON DELETE CASCADE)` — modelled as a list of `Rel` records.
  The declared `ON DELETE CASCADE` is inert at runtime: SQLite keeps
  foreign-key enforcement (and its cascade actions) off unless the
  connection issues `PRAGMA foreign_keys = ON`, which app.js never does,
  so deleting a task leaves its relationship rows behind.

JSON body fields are modelled by `JSVal` (scalar JSON values: absent
fields are `undefined`), since the handlers branch on JavaScript
truthiness (`!title`, `done ? 1 : 0`) and loose equality (`done == 1`).
-/

namespace TaskApp

/-- A scalar JavaScript value, as found in a parsed JSON request body.
An absent field destructures to `undefined`. (Objects/arrays and
non-integer numbers do not occur in the behaviours verified here.) -/
inductive JSVal where
  | undefined
  | null
  | bool (b : Bool)
  | num (n : Int)
  | str (s : String)
deriving DecidableEq, Repr

/-- JavaScript truthiness for `JSVal`: `undefined`, `null`, `false`, `0`
and `""` are falsy, everything else truthy. -/
def truthy : JSVal → Bool
  | .undefined => false
  | .null => false
  | .bool b => b
  | .num n => n != 0
  | .str s => s != ""

/-- Fold decimal digits into a number; `none` if a non-digit appears. -/
def digitsToNat : List Char → Option Nat
  | cs => cs.foldl (fun acc c =>
      match acc with
      | none => none
      | some n => if c.isDigit then some (n * 10 + (c.toNat - 48)) else none)
      (some 0)

/-- JavaScript `ToNumber` on a string, restricted to integer literals
(optionally signed, optionally surrounded by whitespace); `none` models
`NaN`. The empty / all-whitespace string converts to `0`. -/
def strToNumber (s : String) : Option Int :=
  let t := s.trim
  if t = "" then some 0
  else
    match t.toList with
    | '-' :: rest =>
        if rest.isEmpty then none else (digitsToNat rest).map (fun n => -(n : Int))
    | '+' :: rest =>
        if rest.isEmpty then none else (digitsToNat rest).map (fun n => (n : Int))
    | cs => (digitsToNat cs).map (fun n => (n : Int))

/-- JavaScript loose equality `v == 1`, used by the completion handler's
message (`done == 1 ? 'Selesai' : 'Belum Selesai'`). Booleans and strings
are converted to numbers; `null`/`undefined` are `==` only to each other. -/
def looseEqOne : JSVal → Bool
  | .undefined => false
  | .null => false
  | .bool b => b
  | .num n => n == 1
  | .str s => strToNumber s == some 1

/-- A row of the `tasks` table. `done` is the stored `BOOLEAN` (0/1)
value; `title`/`description` are stored as bound, so they keep their
`JSVal` shape. -/
structure Task where
  id : Int
  title : JSVal
  description : JSVal
  done : Bool
  position : Int
deriving DecidableEq, Repr

/-- A row of the `task_relationships` table. -/
structure Rel where
  parent : Int
  child : Int
deriving DecidableEq, Repr

/-- The composite primary-key view of a relationship row. -/
def Rel.pair (r : Rel) : Int × Int := (r.parent, r.child)

/-- The database: both tables plus the AUTOINCREMENT counter (the next
id handed out by an insert into `tasks`). -/
structure DB where
  tasks : List Task
  rels : List Rel
  nextId : Int
deriving DecidableEq, Repr

/-- The empty database created on startup. -/
def initialDB : DB := { tasks := [], rels := [], nextId := 1 }

/-! ## GET /tasks

```
SELECT t.*, GROUP_CONCAT(DISTINCT pr.child_id) as child_tasks,
            GROUP_CONCAT(DISTINCT cr.parent_id) as parent_tasks
FROM tasks t
LEFT JOIN task_relationships pr ON t.id = pr.parent_id
LEFT JOIN task_relationships cr ON t.id = cr.child_id
GROUP BY t.id ORDER BY t.position
```
followed in JS by splitting the concatenated string back into an array
of numbers (`[]` when the aggregate is NULL). -/

/-- LEFT JOIN padding: no matching rows yield a single all-NULL row. -/
def leftPad {α : Type} : List α → List (Option α)
  | [] => [none]
  | xs => xs.map some

/-- The join rows for one task: the cross product of its matches in the
first (`pr`, task-as-parent) and second (`cr`, task-as-child) LEFT JOIN,
each side NULL-padded. The pair carries (`pr.child_id`, `cr.parent_id`),
the only joined columns the query projects. -/
def joinRows (rels : List Rel) (t : Task) : List (Option Int × Option Int) :=
  (leftPad ((rels.filter (fun r => r.parent == t.id)).map (·.child))).flatMap
    (fun p => (leftPad ((rels.filter (fun r => r.child == t.id)).map (·.parent))).map
      (fun c => (p, c)))

/-- `GROUP_CONCAT(DISTINCT x)`: the distinct non-NULL values of `x` over
the group, already combined with the JS re-split (`NULL` — no non-NULL
value — becomes `[]`). -/
def groupConcatDistinct (xs : List (Option Int)) : List Int :=
  (xs.filterMap id).dedup

/-- The JSON object GET /tasks produces for one task. -/
structure TaskRow where
  id : Int
  title : JSVal
  description : JSVal
  done : Bool
  position : Int
  child_tasks : List Int
  parent_tasks : List Int
deriving DecidableEq, Repr

/-- One task's GET /tasks row: the task's columns plus the two
aggregated, deduplicated relationship arrays. -/
def rowOf (rels : List Rel) (t : Task) : TaskRow :=
  { id := t.id, title := t.title, description := t.description,
    done := t.done, position := t.position,
    child_tasks := groupConcatDistinct ((joinRows rels t).map (·.1)),
    parent_tasks := groupConcatDistinct ((joinRows rels t).map (·.2)) }

/-- `ORDER BY t.position`: insert a task into a position-sorted list. -/
def insertByPos (t : Task) : List Task → List Task
  | [] => [t]
  | u :: us => if t.position ≤ u.position then t :: u :: us else u :: insertByPos t us

/-- Sort tasks by ascending `position`. -/
def sortByPos : List Task → List Task
  | [] => []
  | t :: ts => insertByPos t (sortByPos ts)

/-- The full GET /tasks response body (`GROUP BY t.id` gives one row per
task; task ids are unique by PRIMARY KEY). -/
def getTasks (db : DB) : List TaskRow :=
  (sortByPos db.tasks).map (rowOf db.rels)

/-! ## POST /tasks -/

/-- The request body of POST /tasks. `parentTasks`/`childTasks` default
to `[]` when absent; the handler only ever maps over them, so they are
modelled as the id lists they destructure to. -/
structure PostBody where
  title : JSVal
  description : JSVal
  parentTasks : List Int
  childTasks : List Int
deriving DecidableEq, Repr

/-- The outcome of POST /tasks: HTTP status, the error body (if any),
whether a `task_relationships` INSERT statement was issued, and the
resulting store. -/
structure PostResult where
  status : Nat
  error : Option String
  relInsertIssued : Bool
  db : DB
deriving DecidableEq, Repr

/-- The SQLite error message raised when the multi-row relationship
INSERT violates the composite primary key. -/
def pkErrMsg : String :=
  "UNIQUE constraint failed: task_relationships.parent_id, task_relationships.child_id"

/-- The task row inserted by POST /tasks: a fresh id and
`COALESCE(MAX(position) + 1, 0)` (`MAX` of an empty table is NULL). -/
def newTask (db : DB) (body : PostBody) : Task :=
  { id := db.nextId, title := body.title, description := body.description,
    done := false,
    position := match (db.tasks.map (·.position)).max? with
                | none => 0
                | some m => m + 1 }

/-- The relationship rows built by POST /tasks: `(p, newId)` for each
`p ∈ parentTasks`, then `(newId, c)` for each `c ∈ childTasks`. -/
def newRelsOf (db : DB) (body : PostBody) : List Rel :=
  body.parentTasks.map (fun p => { parent := p, child := db.nextId }) ++
  body.childTasks.map (fun c => { parent := db.nextId, child := c })

/-- POST /tasks. `!title` rejects with 400 before touching the store.
Otherwise
`INSERT INTO tasks (title, description, position)
 SELECT ?, ?, COALESCE(MAX(position) + 1, 0) FROM tasks`
inserts the task with a fresh id, then the relationship rows of
`newRelsOf` are inserted by a single multi-row INSERT — skipped entirely
when both lists are empty. A primary-key violation fails that whole
statement (statements are atomic) and answers 500, leaving the
already-inserted task behind. -/
def postTasks (db : DB) (body : PostBody) : PostResult :=
  if !(truthy body.title) then
    { status := 400, error := some "Title is required", relInsertIssued := false, db := db }
  else
    let db1 : DB := { db with tasks := db.tasks ++ [newTask db body], nextId := db.nextId + 1 }
    let newRels : List Rel := newRelsOf db body
    if newRels.isEmpty then
      { status := 200, error := none, relInsertIssued := false, db := db1 }
    else if ((db1.rels ++ newRels).map Rel.pair).Nodup then
      { status := 200, error := none, relInsertIssued := true,
        db := { db1 with rels := db1.rels ++ newRels } }
    else
      { status := 500, error := some pkErrMsg, relInsertIssued := true, db := db1 }

/-! ## PUT /tasks/reorder -/

/-- The outcome of PUT /tasks/reorder. -/
structure ReorderResult where
  status : Nat
  message : String
  db : DB
deriving DecidableEq, Repr

/-- `UPDATE tasks SET position = ? WHERE id = ?` applied to one task row:
the update `(index, taskId)` sets the position of the row whose id
matches. -/
def setPos (p : Nat × Int) (t : Task) : Task :=
  if t.id == p.2 then { t with position := (p.1 : Int) } else t

/-- Run a list of `(index, taskId)` position updates in order. -/
def runUpdates (ts : List Task) (ps : List (Nat × Int)) : List Task :=
  ps.foldl (fun acc p => acc.map (setPos p)) ts

/-- PUT /tasks/reorder with an array body. The handler's `forEach` only
*enqueues* the `db.run` UPDATEs: their callbacks run after the handler
returns, so the `if (errorOccurred)` check always sees the initial
`false` and the response is chosen before any update has run. The
updates themselves execute afterwards, in order; `fails i = true` means
the store reports an error for the `i`-th update (which then changes
nothing), and `errorOccurred` is set too late to matter. Updates for ids
matching no row are silent no-ops. -/
def reorderTasks (db : DB) (ids : List Int) (fails : Nat → Bool) : ReorderResult :=
  let errorOccurred := false
  let resp : Nat × String :=
    if errorOccurred then (500, "Error, try again")
    else (200, "Tasks reordered successfully")
  let applied := ids.enum.filter (fun p => !(fails p.1))
  { status := resp.1, message := resp.2,
    db := { db with tasks := runUpdates db.tasks applied } }

/-! ## PUT /tasks/:id -/

/-- The outcome of PUT /tasks/:id and DELETE /tasks/:id. -/
structure UpdateResult where
  status : Nat
  message : String
  db : DB
deriving DecidableEq, Repr

/-- PUT /tasks/:id: `UPDATE tasks SET done = ? WHERE id = ?` stores
`done ? 1 : 0` (truthiness); 404 when no row changed, else a message
whose label comes from the separate loose comparison `done == 1`.
(The route is registered after `/tasks/reorder`, so `:id` is never the
literal `reorder`; the numeric path parameter compares equal to the
INTEGER id column under SQLite affinity and is modelled as the parsed
id.) -/
def updateDone (db : DB) (id : Int) (done : JSVal) : UpdateResult :=
  let newTasks := db.tasks.map (fun t => if t.id == id then { t with done := truthy done } else t)
  if db.tasks.any (fun t => t.id == id) then
    { status := 200,
      message := "Status task " ++ toString id ++ " berhasil diubah: " ++
        (if looseEqOne done then "Selesai" else "Belum Selesai"),
      db := { db with tasks := newTasks } }
  else
    { status := 404, message := "Task not found", db := db }

/-! ## DELETE /tasks/:id -/

/-- DELETE /tasks/:id: `DELETE FROM tasks WHERE id = ?`; 404 when no row
matched. The schema declares `ON DELETE CASCADE`, but app.js never
issues `PRAGMA foreign_keys = ON` and SQLite defaults foreign-key
enforcement (including cascade actions) off per connection, so the
DELETE removes only the task row and `task_relationships` is left
untouched. -/
def deleteTask (db : DB) (id : Int) : UpdateResult :=
  if db.tasks.any (fun t => t.id == id) then
    { status := 200, message := "Task deleted successfully",
      db := { db with tasks := db.tasks.filter (fun t => !(t.id == id)) } }
  else
    { status := 404, message := "Task not found", db := db }

/-- Apply a list of `(index, taskId)` updates to a single task row. -/
def applyAll (ps : List (Nat × Int)) (t : Task) : Task :=
  ps.foldl (fun u p => setPos p u) t

/-- The states reachable from the empty store through the endpoints. -/
inductive Reachable : DB → Prop where
  | init : Reachable initialDB
  | post (db : DB) (body : PostBody) :
      Reachable db → Reachable (postTasks db body).db
  | reorder (db : DB) (ids : List Int) (fails : Nat → Bool) :
      Reachable db → Reachable (reorderTasks db ids fails).db
  | upd (db : DB) (id : Int) (done : JSVal) :
      Reachable db → Reachable (updateDone db id done).db
  | del (db : DB) (id : Int) :
      Reachable db → Reachable (deleteTask db id).db

/-- A one-task store, used to instantiate the theorems below. -/
def sampleDB1 : DB :=
  { tasks := [{ id := 1, title := JSVal.str "a", description := JSVal.undefined,
                done := false, position := 0 }],
    rels := [], nextId := 2 }

/-- A two-task store with one relationship (1 → 2). -/
def sampleDB2 : DB :=
  { tasks := [{ id := 1, title := JSVal.str "a", description := JSVal.undefined,
                done := false, position := 0 },
              { id := 2, title := JSVal.str "b", description := JSVal.str "d",
                done := false, position := 1 }],
    rels := [{ parent := 1, child := 2 }], nextId := 3 }

/-- A three-task store with no relationships. -/
def sampleDB3 : DB :=
  { tasks := [{ id := 1, title := JSVal.str "a", description := JSVal.undefined,
                done := false, position := 0 },
              { id := 2, title := JSVal.str "b", description := JSVal.undefined,
                done := false, position := 1 },
              { id := 3, title := JSVal.str "c", description := JSVal.undefined,
                done := false, position := 2 }],
    rels := [], nextId := 4 }

/-- A POST body with title only. -/
def sampleBodyPlain : PostBody :=
  { title := JSVal.str "t", description := JSVal.undefined,
    parentTasks := [], childTasks := [] }

/-- A POST body that links the new task below task 1 and above task 2. -/
def sampleBodyLinked : PostBody :=
  { title := JSVal.str "u", description := JSVal.str "d",
    parentTasks := [1], childTasks := [2] }

/-! ## Helper lemmas: the GET /tasks aggregation -/

theorem mem_leftPad_some {α : Type} {xs : List α} {a : α} :
    some a ∈ leftPad xs ↔ a ∈ xs := by
  cases xs <;> simp [leftPad]

theorem leftPad_ne_nil {α : Type} (xs : List α) : leftPad xs ≠ [] := by
  cases xs <;> simp [leftPad]

theorem mem_map_fst_joinRows {rels : List Rel} {t : Task} {o : Option Int} :
    o ∈ (joinRows rels t).map (·.1) ↔
      o ∈ leftPad ((rels.filter (fun r => r.parent == t.id)).map (·.child)) := by
  obtain ⟨c, hc⟩ := List.exists_mem_of_ne_nil _
    (leftPad_ne_nil ((rels.filter (fun r => r.child == t.id)).map (·.parent)))
  unfold joinRows
  constructor
  · intro h
    obtain ⟨pr, hpr, hpro⟩ := List.mem_map.mp h
    obtain ⟨p, hp, hppr⟩ := List.mem_flatMap.mp hpr
    obtain ⟨c1, _, hc1⟩ := List.mem_map.mp hppr
    subst hpro; rw [← hc1]
    exact hp
  · intro h
    exact List.mem_map.mpr ⟨(o, c),
      List.mem_flatMap.mpr ⟨o, h, List.mem_map.mpr ⟨c, hc, rfl⟩⟩, rfl⟩

theorem mem_map_snd_joinRows {rels : List Rel} {t : Task} {o : Option Int} :
    o ∈ (joinRows rels t).map (·.2) ↔
      o ∈ leftPad ((rels.filter (fun r => r.child == t.id)).map (·.parent)) := by
  obtain ⟨p, hp⟩ := List.exists_mem_of_ne_nil _
    (leftPad_ne_nil ((rels.filter (fun r => r.parent == t.id)).map (·.child)))
  unfold joinRows
  constructor
  · intro h
    obtain ⟨pr, hpr, hpro⟩ := List.mem_map.mp h
    obtain ⟨p1, _, hppr⟩ := List.mem_flatMap.mp hpr
    obtain ⟨c1, hc1mem, hc1⟩ := List.mem_map.mp hppr
    subst hpro; rw [← hc1]
    exact hc1mem
  · intro h
    exact List.mem_map.mpr ⟨(p, o),
      List.mem_flatMap.mpr ⟨p, hp, List.mem_map.mpr ⟨o, h, rfl⟩⟩, rfl⟩

theorem mem_child_tasks_iff {rels : List Rel} {t : Task} {x : Int} :
    x ∈ (rowOf rels t).child_tasks ↔ ∃ r ∈ rels, r.parent = t.id ∧ r.child = x := by
  show x ∈ groupConcatDistinct _ ↔ _
  rw [groupConcatDistinct, List.mem_dedup]
  constructor
  · intro h
    obtain ⟨o, ho, hox⟩ := List.mem_filterMap.mp h
    rw [id_eq] at hox; subst hox
    obtain ⟨r, hr, hrx⟩ := List.mem_map.mp (mem_leftPad_some.mp (mem_map_fst_joinRows.mp ho))
    obtain ⟨hr1, hr2⟩ := List.mem_filter.mp hr
    exact ⟨r, hr1, by simpa using hr2, hrx⟩
  · rintro ⟨r, hr, hrp, rfl⟩
    refine List.mem_filterMap.mpr ⟨some r.child, ?_, rfl⟩
    refine mem_map_fst_joinRows.mpr (mem_leftPad_some.mpr ?_)
    exact List.mem_map.mpr ⟨r, List.mem_filter.mpr ⟨hr, by simpa using hrp⟩, rfl⟩

theorem mem_parent_tasks_iff {rels : List Rel} {t : Task} {x : Int} :
    x ∈ (rowOf rels t).parent_tasks ↔ ∃ r ∈ rels, r.child = t.id ∧ r.parent = x := by
  show x ∈ groupConcatDistinct _ ↔ _
  rw [groupConcatDistinct, List.mem_dedup]
  constructor
  · intro h
    obtain ⟨o, ho, hox⟩ := List.mem_filterMap.mp h
    rw [id_eq] at hox; subst hox
    obtain ⟨r, hr, hrx⟩ := List.mem_map.mp (mem_leftPad_some.mp (mem_map_snd_joinRows.mp ho))
    obtain ⟨hr1, hr2⟩ := List.mem_filter.mp hr
    exact ⟨r, hr1, by simpa using hr2, hrx⟩
  · rintro ⟨r, hr, hrp, rfl⟩
    refine List.mem_filterMap.mpr ⟨some r.parent, ?_, rfl⟩
    refine mem_map_snd_joinRows.mpr (mem_leftPad_some.mpr ?_)
    exact List.mem_map.mpr ⟨r, List.mem_filter.mpr ⟨hr, by simpa using hrp⟩, rfl⟩

theorem nodup_child_tasks (rels : List Rel) (t : Task) :
    (rowOf rels t).child_tasks.Nodup :=
  List.nodup_dedup _

theorem nodup_parent_tasks (rels : List Rel) (t : Task) :
    (rowOf rels t).parent_tasks.Nodup :=
  List.nodup_dedup _

/-! ## Helper lemmas: sorting by position -/

theorem mem_insertByPos {t u : Task} {l : List Task} :
    u ∈ insertByPos t l ↔ u = t ∨ u ∈ l := by
  induction l with
  | nil => simp [insertByPos]
  | cons v vs ih =>
      by_cases h : t.position ≤ v.position
      · simp [insertByPos, h]
      · simp [insertByPos, h, ih]
        tauto

theorem mem_sortByPos {u : Task} {l : List Task} : u ∈ sortByPos l ↔ u ∈ l := by
  induction l with
  | nil => simp [sortByPos]
  | cons v vs ih => simp [sortByPos, mem_insertByPos, ih]

theorem sorted_insertByPos {t : Task} {l : List Task}
    (hl : l.Pairwise (fun a b => a.position ≤ b.position)) :
    (insertByPos t l).Pairwise (fun a b => a.position ≤ b.position) := by
  induction l with
  | nil => simp [insertByPos]
  | cons v vs ih =>
      rw [List.pairwise_cons] at hl
      by_cases h : t.position ≤ v.position
      · rw [insertByPos, if_pos h, List.pairwise_cons]
        refine ⟨?_, List.pairwise_cons.mpr hl⟩
        intro b hb
        rcases List.mem_cons.mp hb with rfl | hb
        · exact h
        · exact le_trans h (hl.1 b hb)
      · rw [insertByPos, if_neg h, List.pairwise_cons]
        refine ⟨?_, ih hl.2⟩
        intro b hb
        rcases mem_insertByPos.mp hb with rfl | hb
        · omega
        · exact hl.1 b hb

theorem sorted_sortByPos (l : List Task) :
    (sortByPos l).Pairwise (fun a b => a.position ≤ b.position) := by
  induction l with
  | nil => simp [sortByPos]
  | cons v vs ih => exact sorted_insertByPos ih

theorem sublist_pair_of_sorted {l : List Task} {a b : Task}
    (hs : l.Pairwise (fun x y => x.position ≤ y.position))
    (ha : a ∈ l) (hb : b ∈ l) (hab : a.position < b.position) :
    [a, b].Sublist l := by
  induction l with
  | nil => cases ha
  | cons x xs ih =>
      rw [List.pairwise_cons] at hs
      rcases List.mem_cons.mp ha with ha1 | ha2
      · rcases List.mem_cons.mp hb with hb1 | hb2
        · rw [ha1, hb1] at hab
          omega
        · rw [ha1]
          exact (List.singleton_sublist.mpr hb2).cons₂ x
      · rcases List.mem_cons.mp hb with hb1 | hb2
        · have h1 := hs.1 a ha2
          rw [hb1] at hab
          omega
        · exact (ih hs.2 ha2 hb2).cons x

/-! ## Helper lemmas: position updates -/

theorem setPos_id (p : Nat × Int) (t : Task) : (setPos p t).id = t.id := by
  unfold setPos
  split <;> rfl

theorem applyAll_cons (p : Nat × Int) (ps : List (Nat × Int)) (t : Task) :
    applyAll (p :: ps) t = applyAll ps (setPos p t) := rfl

theorem applyAll_id (ps : List (Nat × Int)) (t : Task) : (applyAll ps t).id = t.id := by
  induction ps generalizing t with
  | nil => rfl
  | cons p ps ih => rw [applyAll_cons, ih, setPos_id]

theorem applyAll_done (ps : List (Nat × Int)) (t : Task) : (applyAll ps t).done = t.done := by
  induction ps generalizing t with
  | nil => rfl
  | cons p ps ih =>
      rw [applyAll_cons, ih]
      unfold setPos
      split <;> rfl

theorem applyAll_not_mem (ps : List (Nat × Int)) (t : Task) (h : t.id ∉ ps.map (·.2)) :
    applyAll ps t = t := by
  induction ps with
  | nil => rfl
  | cons p ps ih =>
      simp only [List.map_cons, List.mem_cons, not_or] at h
      rw [applyAll_cons]
      have hne : (t.id == p.2) = false := by simpa using h.1
      rw [show setPos p t = t from by unfold setPos; rw [hne]; rfl]
      exact ih (by simpa using h.2)

theorem runUpdates_eq_map (ts : List Task) (ps : List (Nat × Int)) :
    runUpdates ts ps = ts.map (applyAll ps) := by
  induction ps generalizing ts with
  | nil =>
      show ts = ts.map (fun t => t)
      rw [List.map_id']
  | cons p ps ih =>
      show runUpdates (ts.map (setPos p)) ps = _
      rw [ih, List.map_map]
      rfl

theorem enumFrom_map_snd {α : Type} (n : Nat) (l : List α) :
    (List.enumFrom n l).map (·.2) = l := by
  induction l generalizing n with
  | nil => rfl
  | cons a xs ih => simp [List.enumFrom_cons, ih]

theorem applyAll_enumFrom_position (ids : List Int) (hnd : ids.Nodup) :
    ∀ (n : Nat) (t : Task) (i : Nat) (hi : i < ids.length),
      t.id = ids[i] →
      (applyAll (List.enumFrom n ids) t).position = ((n + i : Nat) : Int) := by
  induction ids with
  | nil =>
      intro n t i hi
      exact absurd hi (Nat.not_lt_zero i)
  | cons a rest ih =>
      intro n t i hi hid
      rw [List.nodup_cons] at hnd
      rw [List.enumFrom_cons, applyAll_cons]
      cases i with
      | zero =>
          simp only [List.getElem_cons_zero] at hid
          have hset : setPos (n, a) t = { t with position := (n : Int) } := by
            unfold setPos
            simp [hid]
          rw [hset, applyAll_not_mem]
          · simp
          · rw [enumFrom_map_snd]
            show t.id ∉ rest
            rw [hid]
            exact hnd.1
      | succ j =>
          simp only [List.getElem_cons_succ] at hid
          have hne : t.id ≠ a := by
            intro h
            exact hnd.1 (h ▸ hid ▸ List.getElem_mem _)
          have hset : setPos (n, a) t = t := by
            unfold setPos
            simp [hne]
          rw [hset]
          have := ih hnd.2 (n + 1) t j (by simpa using hi) hid
          rw [this]
          congr 1
          omega

/-! ## Helper lemmas: MAX(position) -/

theorem max?_position_spec {l : List Task} {m : Int}
    (h : (l.map (·.position)).max? = some m) :
    (∃ u ∈ l, u.position = m) ∧ ∀ v ∈ l, v.position ≤ m := by
  have h1 := List.max?_mem (fun a b : Int => max_choice a b) h
  have h2 := List.max?_le_iff (fun a b c : Int => max_le_iff) h (x := m)
  obtain ⟨u, hu, hup⟩ := List.mem_map.mp h1
  refine ⟨⟨u, hu, hup⟩, ?_⟩
  intro v hv
  exact h2.mp le_rfl _ (List.mem_map.mpr ⟨v, hv, rfl⟩)

/-! ## Helper lemmas: POST /tasks -/

theorem postTasks_db_tasks (db : DB) (body : PostBody) (h : truthy body.title = true) :
    (postTasks db body).db.tasks = db.tasks ++ [newTask db body] := by
  unfold postTasks
  rw [h]
  simp only [Bool.not_true]
  rw [if_neg (by simp)]
  split
  · rfl
  · split <;> rfl

/-! ## The claims -/

/-- C3: for every successful POST /tasks (a truthy title is the only
gate before the insert), the inserted task's position is one greater
than the maximum position among the tasks existing at insertion time,
and 0 when the tasks table is empty. -/
theorem post_position_is_max_plus_one (db : DB) (body : PostBody)
    (h : truthy body.title = true) :
    ∃ t ∈ (postTasks db body).db.tasks, t.id = db.nextId ∧
      ((db.tasks = [] ∧ t.position = 0) ∨
       (∃ u ∈ db.tasks, t.position = u.position + 1 ∧
          ∀ v ∈ db.tasks, v.position ≤ u.position)) := by
  refine ⟨newTask db body, ?_, rfl, ?_⟩
  · rw [postTasks_db_tasks db body h]
    exact List.mem_append_right _ (List.mem_singleton.mpr rfl)
  · cases hmax : (db.tasks.map (·.position)).max? with
    | none =>
        left
        have hnil : db.tasks = [] :=
          List.map_eq_nil_iff.mp (List.max?_eq_none_iff.mp hmax)
        exact ⟨hnil, by simp [newTask, hmax]⟩
    | some m =>
        right
        obtain ⟨⟨u, hu, hup⟩, hall⟩ := max?_position_spec hmax
        refine ⟨u, hu, by simp [newTask, hmax, hup], fun v hv => hup ▸ hall v hv⟩

/-- C3 witness: on the one-task store, the new task gets position
`0 + 1` computed from the existing maximum. -/
theorem post_position_is_max_plus_one_witness :
    truthy sampleBodyPlain.title = true ∧
    (∃ t ∈ (postTasks sampleDB1 sampleBodyPlain).db.tasks, t.id = sampleDB1.nextId ∧
      ((sampleDB1.tasks = [] ∧ t.position = 0) ∨
       (∃ u ∈ sampleDB1.tasks, t.position = u.position + 1 ∧
          ∀ v ∈ sampleDB1.tasks, v.position ≤ u.position))) :=
  ⟨by decide, post_position_is_max_plus_one sampleDB1 sampleBodyPlain (by decide)⟩

/-- C6: a POST /tasks body whose title is not a non-empty string (falsy)
is rejected with 400 and the specific message, and the store is left
completely unchanged. -/
theorem post_missing_title_rejected (db : DB) (body : PostBody)
    (h : truthy body.title = false) :
    postTasks db body =
      { status := 400, error := some "Title is required",
        relInsertIssued := false, db := db } := by
  unfold postTasks
  rw [h]
  rfl

/-- C6 witness: a body with `title` absent is rejected on the one-task
store without touching it. -/
theorem post_missing_title_rejected_witness :
    truthy (JSVal.undefined) = false ∧
    postTasks sampleDB1
        { title := JSVal.undefined, description := JSVal.undefined,
          parentTasks := [], childTasks := [] } =
      { status := 400, error := some "Title is required",
        relInsertIssued := false, db := sampleDB1 } :=
  ⟨by decide, post_missing_title_rejected sampleDB1 _ (by decide)⟩

/-- On a matched id, PUT /tasks/:id answers 200 and stores the
truthiness coercion of the body's `done`. -/
theorem updateDone_stores_truthiness (db : DB) (id : Int) (done : JSVal)
    (hx : db.tasks.any (fun t => t.id == id) = true) :
    (updateDone db id done).status = 200 ∧
    ∀ t ∈ (updateDone db id done).db.tasks, t.id = id → t.done = truthy done := by
  unfold updateDone
  rw [if_pos hx]
  refine ⟨rfl, ?_⟩
  intro t ht hid
  obtain ⟨t0, ht0, rfl⟩ := List.mem_map.mp ht
  by_cases h0 : (t0.id == id) = true
  · rw [if_pos h0]
  · rw [if_neg h0] at hid
    exact absurd (by simpa using hid) h0

/-- C10: PUT /tasks/:id never answers 400 (the body is not validated),
and on an existing task it answers 200 and stores exactly the
truthiness coercion of the body's `done` field (absent = `undefined` is
falsy and stores false; any truthy value stores true). -/
theorem update_done_truthiness_no_400 (db : DB) (id : Int) (done : JSVal) :
    (updateDone db id done).status ≠ 400 ∧
    ((∃ t ∈ db.tasks, t.id = id) →
      (updateDone db id done).status = 200 ∧
      ∀ t ∈ (updateDone db id done).db.tasks, t.id = id → t.done = truthy done) := by
  by_cases hx : db.tasks.any (fun t => t.id == id) = true
  · refine ⟨?_, fun _ => updateDone_stores_truthiness db id done hx⟩
    rw [(updateDone_stores_truthiness db id done hx).1]
    decide
  · constructor
    · unfold updateDone
      rw [if_neg hx]
      show (404 : Nat) ≠ 400
      decide
    · intro hex
      obtain ⟨t, ht, hid⟩ := hex
      exact absurd (List.any_eq_true.mpr ⟨t, ht, by simpa using hid⟩) hx

/-- C10 witness: updating task 1 of the one-task store with `done = "x"`
(truthy, not loosely equal to 1) answers 200, never 400, and stores
`done = true`. -/
theorem update_done_truthiness_no_400_witness :
    (updateDone sampleDB1 1 (JSVal.str "x")).status ≠ 400 ∧
    ((∃ t ∈ sampleDB1.tasks, t.id = 1) →
      (updateDone sampleDB1 1 (JSVal.str "x")).status = 200 ∧
      ∀ t ∈ (updateDone sampleDB1 1 (JSVal.str "x")).db.tasks,
        t.id = 1 → t.done = truthy (JSVal.str "x")) :=
  update_done_truthiness_no_400 sampleDB1 1 (JSVal.str "x")

/-- C5 counterexample: with body `done = 2` on the one-task store, the
task is stored as done (`2` is truthy) yet the 200 message carries the
"Belum Selesai" label, because the message tests `done == 1` instead of
the stored value. -/
theorem update_done_label_counterexample :
    (updateDone sampleDB1 1 (JSVal.num 2)).status = 200 ∧
    (∀ t ∈ (updateDone sampleDB1 1 (JSVal.num 2)).db.tasks,
        t.id = 1 → t.done = true) ∧
    (updateDone sampleDB1 1 (JSVal.num 2)).message =
      "Status task 1 berhasil diubah: Belum Selesai" := by
  refine ⟨rfl, ?_, rfl⟩
  decide

/-- C5 (amended): on an existing task the 200 message names the task id
and picks its label by the loose test `done == 1`, while the stored flag
is the truthiness of `done`; the two agree on every boolean `done` (so
the claim holds for `done = true` / `done = false`), but not on every
body, as the counterexample `done = 2` shows. -/
theorem update_done_message_amended (db : DB) (id : Int) (done : JSVal)
    (h : ∃ t ∈ db.tasks, t.id = id) :
    (updateDone db id done).status = 200 ∧
    (updateDone db id done).message =
      "Status task " ++ toString id ++ " berhasil diubah: " ++
        (if looseEqOne done then "Selesai" else "Belum Selesai") ∧
    (∀ t ∈ (updateDone db id done).db.tasks, t.id = id → t.done = truthy done) ∧
    (∀ b : Bool, done = JSVal.bool b → looseEqOne done = truthy done) := by
  obtain ⟨t0, ht0, hid0⟩ := h
  have hx : db.tasks.any (fun t => t.id == id) = true :=
    List.any_eq_true.mpr ⟨t0, ht0, by simpa using hid0⟩
  have h200 := updateDone_stores_truthiness db id done hx
  refine ⟨h200.1, ?_, h200.2, ?_⟩
  · unfold updateDone
    rw [if_pos hx]
  · rintro b rfl
    cases b <;> rfl

/-- C5 witness (amended claim): instantiated with `done = true` on the
one-task store; the label test and the stored value agree. -/
theorem update_done_message_amended_witness :
    (∃ t ∈ sampleDB1.tasks, t.id = 1) ∧
    ((updateDone sampleDB1 1 (JSVal.bool true)).status = 200 ∧
     (updateDone sampleDB1 1 (JSVal.bool true)).message =
       "Status task " ++ toString (1 : Int) ++ " berhasil diubah: " ++
         (if looseEqOne (JSVal.bool true) then "Selesai" else "Belum Selesai") ∧
     (∀ t ∈ (updateDone sampleDB1 1 (JSVal.bool true)).db.tasks,
        t.id = 1 → t.done = truthy (JSVal.bool true)) ∧
     (∀ b : Bool, JSVal.bool true = JSVal.bool b →
        looseEqOne (JSVal.bool true) = truthy (JSVal.bool true))) :=
  ⟨by decide, update_done_message_amended sampleDB1 1 (JSVal.bool true) (by decide)⟩

/-- C2 (code-bug evidence): the reorder handler checks `errorOccurred`
before any UPDATE callback has run, so the response is 200 with the
success message for every array body and every pattern of update
failures — the 500 branch is unreachable. -/
theorem reorder_response_ignores_failures (db : DB) (ids : List Int) (fails : Nat → Bool) :
    (reorderTasks db ids fails).status = 200 ∧
    (reorderTasks db ids fails).message = "Tasks reordered successfully" :=
  ⟨rfl, rfl⟩

/-- C4: for every POST /tasks past the title check, a 200 response means
the relationship table grew by exactly the rows `(p, newId)` for
`p ∈ parentTasks` followed by `(newId, c)` for `c ∈ childTasks`; and
when both lists are empty the request succeeds with no relationship
INSERT issued and the relationship table unchanged. -/
theorem post_relationships_exact (db : DB) (body : PostBody)
    (h : truthy body.title = true) :
    ((postTasks db body).status = 200 →
      (postTasks db body).db.rels =
        db.rels ++ (body.parentTasks.map (fun p => { parent := p, child := db.nextId }) ++
                    body.childTasks.map (fun c => { parent := db.nextId, child := c }))) ∧
    (body.parentTasks = [] → body.childTasks = [] →
      (postTasks db body).status = 200 ∧
      (postTasks db body).relInsertIssued = false ∧
      (postTasks db body).db.rels = db.rels) := by
  simp only [postTasks, h, Bool.not_true, Bool.false_eq_true, if_false]
  constructor
  · split
    · next hemp =>
        intro _
        have hnil : newRelsOf db body = [] := by simpa using hemp
        unfold newRelsOf at hnil
        obtain ⟨hp, hc⟩ := List.append_eq_nil.mp hnil
        rw [hp, hc]
        simp
    · split
      · intro _
        rfl
      · intro h500
        exact absurd h500 (by show (500 : Nat) = 200 → False; decide)
  · intro hp hc
    have hemp : (newRelsOf db body).isEmpty = true := by simp [newRelsOf, hp, hc]
    rw [if_pos hemp]
    exact ⟨rfl, rfl, rfl⟩

/-- C4 witness: posting a task linked under task 1 and above task 2 on
the two-task store succeeds and inserts exactly `(1, 3)` and `(3, 2)`. -/
theorem post_relationships_exact_witness :
    truthy sampleBodyLinked.title = true ∧
    (((postTasks sampleDB2 sampleBodyLinked).status = 200 →
      (postTasks sampleDB2 sampleBodyLinked).db.rels =
        sampleDB2.rels ++
          (sampleBodyLinked.parentTasks.map
              (fun p => { parent := p, child := sampleDB2.nextId }) ++
           sampleBodyLinked.childTasks.map
              (fun c => { parent := sampleDB2.nextId, child := c }))) ∧
    (sampleBodyLinked.parentTasks = [] → sampleBodyLinked.childTasks = [] →
      (postTasks sampleDB2 sampleBodyLinked).status = 200 ∧
      (postTasks sampleDB2 sampleBodyLinked).relInsertIssued = false ∧
      (postTasks sampleDB2 sampleBodyLinked).db.rels = sampleDB2.rels)) :=
  ⟨by decide, post_relationships_exact sampleDB2 sampleBodyLinked (by decide)⟩

/-- C1 (code-bug evidence): on the two-task store with relationship
1 → 2, DELETE /tasks/1 answers 200 yet the relationship row (1, 2)
survives — the declared cascade never runs because the connection never
enables the foreign_keys pragma — and a subsequent GET /tasks still
shows the deleted id 1 in task 2's `parent_tasks`. -/
theorem delete_leaves_dangling_relationship :
    (deleteTask sampleDB2 1).status = 200 ∧
    (deleteTask sampleDB2 1).db.rels = [{ parent := 1, child := 2 }] ∧
    ∃ row ∈ getTasks (deleteTask sampleDB2 1).db,
      row.id = 2 ∧ (1 : Int) ∈ row.parent_tasks := by
  decide

/-- C8: every row of GET /tasks carries deduplicated `child_tasks` and
`parent_tasks` arrays that are exactly the ids related to the row's task
as children resp. parents, and a task with no relationships gets two
empty arrays (never null/absent — the fields always hold a list). -/
theorem get_tasks_rel_arrays (db : DB) (row : TaskRow) (hrow : row ∈ getTasks db) :
    row.child_tasks.Nodup ∧ row.parent_tasks.Nodup ∧
    (∀ c : Int, c ∈ row.child_tasks ↔ ∃ r ∈ db.rels, r.parent = row.id ∧ r.child = c) ∧
    (∀ p : Int, p ∈ row.parent_tasks ↔ ∃ r ∈ db.rels, r.child = row.id ∧ r.parent = p) ∧
    ((∀ r ∈ db.rels, r.parent ≠ row.id ∧ r.child ≠ row.id) →
      row.child_tasks = [] ∧ row.parent_tasks = []) := by
  obtain ⟨t, ht, rfl⟩ := List.mem_map.mp hrow
  refine ⟨nodup_child_tasks _ _, nodup_parent_tasks _ _, ?_, ?_, ?_⟩
  · intro c
    exact mem_child_tasks_iff
  · intro p
    exact mem_parent_tasks_iff
  · intro hno
    constructor
    · refine List.eq_nil_iff_forall_not_mem.mpr (fun c hc => ?_)
      obtain ⟨r, hr, hrp, _⟩ := mem_child_tasks_iff.mp hc
      exact (hno r hr).1 hrp
    · refine List.eq_nil_iff_forall_not_mem.mpr (fun p hp => ?_)
      obtain ⟨r, hr, hrc, _⟩ := mem_parent_tasks_iff.mp hp
      exact (hno r hr).2 hrc

/-- C8 witness: the GET /tasks row of task 1 in the two-task store (one
relationship 1 → 2) satisfies the aggregation contract. -/
theorem get_tasks_rel_arrays_witness :
    ({ id := 1, title := JSVal.str "a", description := JSVal.undefined,
       done := false, position := 0,
       child_tasks := [2], parent_tasks := [] } : TaskRow) ∈ getTasks sampleDB2 ∧
    (([2] : List Int).Nodup ∧ ([] : List Int).Nodup ∧
     (∀ c : Int, c ∈ ([2] : List Int) ↔
        ∃ r ∈ sampleDB2.rels, r.parent = 1 ∧ r.child = c) ∧
     (∀ p : Int, p ∈ ([] : List Int) ↔
        ∃ r ∈ sampleDB2.rels, r.child = 1 ∧ r.parent = p) ∧
     ((∀ r ∈ sampleDB2.rels, r.parent ≠ 1 ∧ r.child ≠ 1) →
        ([2] : List Int) = [] ∧ ([] : List Int) = [])) :=
  ⟨by decide,
    get_tasks_rel_arrays sampleDB2
      { id := 1, title := JSVal.str "a", description := JSVal.undefined,
        done := false, position := 0, child_tasks := [2], parent_tasks := [] }
      (by decide)⟩

/-- C9: in every state reachable through the endpoints, the composite
primary key holds — the (parent_id, child_id) pairs in the relationship
table are pairwise distinct. Every endpoint preserves it: a POST whose
relationship batch would collide fails atomically, and the other
endpoints never add relationship rows. -/
theorem relationships_pk_unique {db : DB} (h : Reachable db) :
    (db.rels.map Rel.pair).Nodup := by
  induction h with
  | init => simp [initialDB]
  | post db body hr ih =>
      simp only [postTasks]
      split
      · exact ih
      · split
        · exact ih
        · split
          · next hnd => exact hnd
          · exact ih
  | reorder db ids fails hr ih => exact ih
  | upd db id done hr ih =>
      simp only [updateDone]
      split
      · exact ih
      · exact ih
  | del db id hr ih =>
      simp only [deleteTask]
      split
      · exact ih
      · exact ih

/-- C9 witness: the store reached by creating a plain task and then a
task linked to it has pairwise-distinct relationship pairs. -/
theorem relationships_pk_unique_witness :
    (((postTasks (postTasks initialDB sampleBodyPlain).db sampleBodyLinked).db).rels.map
        Rel.pair).Nodup :=
  relationships_pk_unique
    (Reachable.post _ sampleBodyLinked (Reachable.post _ sampleBodyPlain Reachable.init))

/-- With no store failures, the reorder handler runs exactly the
enumerated updates. -/
theorem reorderTasks_db_tasks (db : DB) (ids : List Int) :
    (reorderTasks db ids (fun _ => false)).db.tasks =
      runUpdates db.tasks (List.enumFrom 0 ids) := by
  have h1 : ids.enum.filter (fun p => !((fun _ : Nat => false) p.1)) = ids.enum :=
    List.filter_eq_self.mpr (fun a _ => rfl)
  show runUpdates db.tasks (ids.enum.filter (fun p => !((fun _ : Nat => false) p.1))) = _
  rw [h1]
  rfl

/-- C7: reordering with a list of distinct existing task ids gives the
i-th listed id position i, and a subsequent GET /tasks lists those tasks
in exactly the order given (each earlier id appears before each later
one). -/
theorem reorder_sets_positions_and_order (db : DB) (ids : List Int)
    (hnd : ids.Nodup) (hex : ∀ x ∈ ids, ∃ t ∈ db.tasks, t.id = x) :
    (∀ (i : Nat) (hi : i < ids.length) (t : Task),
       t ∈ (reorderTasks db ids (fun _ => false)).db.tasks → t.id = ids[i] →
       t.position = (i : Int)) ∧
    (∀ (i j : Nat) (hi : i < ids.length) (hj : j < ids.length), i < j →
       [ids[i], ids[j]].Sublist
         ((getTasks (reorderTasks db ids (fun _ => false)).db).map (·.id))) := by
  have htasks := reorderTasks_db_tasks db ids
  constructor
  · intro i hi t ht hid
    rw [htasks, runUpdates_eq_map] at ht
    obtain ⟨t0, ht0, rfl⟩ := List.mem_map.mp ht
    have hid0 : t0.id = ids[i] := by
      rw [← applyAll_id (List.enumFrom 0 ids) t0]
      exact hid
    have hpos := applyAll_enumFrom_position ids hnd 0 t0 i hi hid0
    rw [hpos]
    simp
  · intro i j hi hj hij
    obtain ⟨ti0, hti0, htid⟩ := hex ids[i] (List.getElem_mem hi)
    obtain ⟨tj0, htj0, htjd⟩ := hex ids[j] (List.getElem_mem hj)
    have hmi : applyAll (List.enumFrom 0 ids) ti0 ∈
        (reorderTasks db ids (fun _ => false)).db.tasks := by
      rw [htasks, runUpdates_eq_map]
      exact List.mem_map.mpr ⟨ti0, hti0, rfl⟩
    have hmj : applyAll (List.enumFrom 0 ids) tj0 ∈
        (reorderTasks db ids (fun _ => false)).db.tasks := by
      rw [htasks, runUpdates_eq_map]
      exact List.mem_map.mpr ⟨tj0, htj0, rfl⟩
    have hpi := applyAll_enumFrom_position ids hnd 0 ti0 i hi htid
    have hpj := applyAll_enumFrom_position ids hnd 0 tj0 j hj htjd
    have hlt : (applyAll (List.enumFrom 0 ids) ti0).position <
        (applyAll (List.enumFrom 0 ids) tj0).position := by
      rw [hpi, hpj]
      simp
      omega
    have hsub := sublist_pair_of_sorted
      (sorted_sortByPos ((reorderTasks db ids (fun _ => false)).db.tasks))
      (mem_sortByPos.mpr hmi) (mem_sortByPos.mpr hmj) hlt
    have hsub2 := hsub.map (fun t : Task => t.id)
    have hidi : (applyAll (List.enumFrom 0 ids) ti0).id = ids[i] := by
      rw [applyAll_id]
      exact htid
    have hidj : (applyAll (List.enumFrom 0 ids) tj0).id = ids[j] := by
      rw [applyAll_id]
      exact htjd
    have hmap : (getTasks (reorderTasks db ids (fun _ => false)).db).map (·.id)
        = (sortByPos ((reorderTasks db ids (fun _ => false)).db.tasks)).map
            (fun t : Task => t.id) := by
      unfold getTasks
      rw [List.map_map]
      rfl
    rw [hmap, ← hidi, ← hidj]
    exact hsub2

/-- C7 witness: reordering the three-task store with `[3, 1, 2]` puts
task 3 at position 0, task 1 at position 1, task 2 at position 2, and
GET /tasks lists 3 before 1 before 2. -/
theorem reorder_sets_positions_and_order_witness :
    ([3, 1, 2] : List Int).Nodup ∧
    (∀ x ∈ ([3, 1, 2] : List Int), ∃ t ∈ sampleDB3.tasks, t.id = x) ∧
    ((∀ (i : Nat) (hi : i < ([3, 1, 2] : List Int).length) (t : Task),
        t ∈ (reorderTasks sampleDB3 [3, 1, 2] (fun _ => false)).db.tasks →
        t.id = ([3, 1, 2] : List Int)[i] →
        t.position = (i : Int)) ∧
     (∀ (i j : Nat) (hi : i < ([3, 1, 2] : List Int).length)
        (hj : j < ([3, 1, 2] : List Int).length), i < j →
        [([3, 1, 2] : List Int)[i], ([3, 1, 2] : List Int)[j]].Sublist
          ((getTasks (reorderTasks sampleDB3 [3, 1, 2] (fun _ => false)).db).map (·.id)))) :=
  ⟨by decide, by decide,
    reorder_sets_positions_and_order sampleDB3 [3, 1, 2] (by decide) (by decide)⟩

end TaskApp
